import Mathlib

/-!
Shallow embedding of the formant-synthesis parameter model of the vowel
synthesizer (class `VowelSynthesizerCore` and the `VOWELS` catalog).
JS numbers are modelled as real numbers; the catalog data (formant
frequencies and articulatory positions) are exact decimal literals and are
kept as rationals inside the records, cast to `ℝ` at use sites.
`Array.prototype.sort` with comparator `(a, b) => a.dist - b.dist` is a
stable ascending sort by `dist`; it is embedded as `List.insertionSort`
with the relation `a.dist ≤ b.dist`, which is stable in the same sense.
The audio-graph side effects (`setTargetAtTime`, `setValueAtTime`) are
modelled as an emitted list of host commands.
-/

namespace VowelSynth

/-- One anchor of the `VOWELS` catalog: symbolic label, the three formant
frequencies in Hz, and the articulatory position in [0,1]×[0,1]. -/
structure Vowel where
  name : String
  formants : List ℚ
  posx : ℚ
  posy : ℚ
deriving DecidableEq, Repr

/-- The fixed 11-anchor catalog, in source (insertion) order. -/
def VOWELS : List Vowel :=
  [⟨"i", [270, 2290, 3010], 0.9, 0.9⟩,
   ⟨"I", [390, 1990, 2550], 0.85, 0.75⟩,
   ⟨"e", [530, 1840, 2480], 0.8, 0.6⟩,
   ⟨"ɛ", [660, 1720, 2410], 0.7, 0.4⟩,
   ⟨"æ", [860, 1550, 2410], 0.7, 0.2⟩,
   ⟨"ə", [490, 1350, 1690], 0.5, 0.5⟩,
   ⟨"ɑ", [730, 1090, 2440], 0.4, 0.15⟩,
   ⟨"ɔ", [570, 840, 2410], 0.3, 0.35⟩,
   ⟨"o", [450, 870, 2410], 0.2, 0.55⟩,
   ⟨"u", [300, 870, 2240], 0.1, 0.9⟩,
   ⟨"ʊ", [440, 1020, 2240], 0.15, 0.75⟩]

/-- The distance `Math.sqrt(dx*dx + dy*dy)` from anchor `v` to the query `(x, y)`. -/
noncomputable def distTo (v : Vowel) (x y : ℝ) : ℝ :=
  let dx : ℝ := (v.posx : ℝ) - x
  let dy : ℝ := (v.posy : ℝ) - y
  Real.sqrt (dx * dx + dy * dy)

/-- The `distances` array: each catalog entry paired with its distance. -/
noncomputable def distances (x y : ℝ) : List (Vowel × ℝ) :=
  VOWELS.map fun v => (v, distTo v x y)

/-- The comparator `(a, b) => a.dist - b.dist`: ascending order by distance. -/
def distLE (a b : Vowel × ℝ) : Prop := a.2 ≤ b.2

noncomputable instance : DecidableRel distLE := fun a b => Real.decidableLE a.2 b.2

/-- The sort `distances.sort((a, b) => a.dist - b.dist)`: stable ascending sort. -/
noncomputable def sortedDistances (x y : ℝ) : List (Vowel × ℝ) :=
  (distances x y).insertionSort distLE

/-- The slice `distances.slice(0, 3)` after sorting: the three nearest anchors. -/
noncomputable def nearest (x y : ℝ) : List (Vowel × ℝ) :=
  (sortedDistances x y).take 3

/-- The raw inverse-distance weights `1.0 / (v.dist + 0.01)`. -/
noncomputable def weightList (x y : ℝ) : List ℝ :=
  (nearest x y).map fun v => 1.0 / (v.2 + 0.01)

/-- The accumulated `totalWeight` over the three raw weights. -/
noncomputable def totalWeight (x y : ℝ) : ℝ :=
  (weightList x y).sum

/-- The normalization `weights.map(w => w / totalWeight)`. -/
noncomputable def normalizedWeights (x y : ℝ) : List ℝ :=
  (weightList x y).map fun w => w / totalWeight x y

/-- The method `interpolateFormants(x, y)`: for each band `i`, the accumulated sum
`formants[i] += nearest[j].data.formants[i] * normalizedWeights[j]`. -/
noncomputable def interpolateFormants (x y : ℝ) : List ℝ :=
  (List.range 3).map fun i =>
    (((nearest x y).zip (normalizedWeights x y)).map fun p =>
      ((p.1.1.formants.getD i 0 : ℚ) : ℝ) * p.2).sum

/-- The method `scaleFormantsForGender(formants, genderFactor)`. -/
noncomputable def scaleFormantsForGender (formants : List ℝ) (genderFactor : ℝ) :
    List ℝ :=
  let scale : ℝ :=
    if genderFactor ≤ 1.0 then 1.0 + 0.18 * genderFactor
    else 1.18 + 0.25 * (genderFactor - 1.0)
  formants.map fun f => f * scale

/-- The method `calculateBandwidth(formantFreq, qualityFactor)`. -/
noncomputable def calculateBandwidth (formantFreq qualityFactor : ℝ) : ℝ :=
  let baseBW := formantFreq * 0.08
  let mult : ℝ :=
    if 0 ≤ qualityFactor then 1.0 + 0.5 * qualityFactor
    else 1.0 + 0.3 * qualityFactor
  baseBW * mult

/-- The squared distance from anchor `v` to a rational query point; the
comparator of the sort orders by distance, and since `Real.sqrt` is
monotone this rational quantity induces the same order. -/
def sqDist (v : Vowel) (x y : ℚ) : ℚ :=
  (v.posx - x) * (v.posx - x) + (v.posy - y) * (v.posy - y)

/-- Computable mirror of the sorting pass at a rational query point,
keyed by squared distance. -/
def sortVowelsQ (x y : ℚ) : List Vowel :=
  VOWELS.insertionSort fun a b => sqDist a x y ≤ sqDist b x y

/-- Computable mirror of the nearest-3 selection at a rational query point. -/
def selectQ (x y : ℚ) : List Vowel :=
  (sortVowelsQ x y).take 3

/-- The control values read by the recompute pass. -/
structure ControlState where
  vowelX : ℝ
  vowelY : ℝ
  genderFactor : ℝ
  qualityFactor : ℝ

/-- The pure recompute pipeline of `updateVowel`: interpolate, scale for
gender, then per band pair the frequency with `Q = freq / bw`. -/
noncomputable def recompute (s : ControlState) : List (ℝ × ℝ) :=
  let formants :=
    scaleFormantsForGender (interpolateFormants s.vowelX s.vowelY) s.genderFactor
  (List.range 3).map fun i =>
    let freq := formants.getD i 0
    let bw := calculateBandwidth freq s.qualityFactor
    (freq, freq / bw)

/-- Commands handed to the host audio graph (`setTargetAtTime` and
`setValueAtTime` calls on oscillator, filter and gain nodes). -/
inductive HostCmd where
  | setFilterFreq : ℕ → ℝ → HostCmd
  | setFilterQ : ℕ → ℝ → HostCmd
  | setOscFreq : ℝ → HostCmd
  | setGain : ℝ → HostCmd

/-- The synthesizer's own mutable fields (audio-node handles aside). -/
structure SynthState where
  isRunning : Bool
  vowelX : ℝ
  vowelY : ℝ
  genderFactor : ℝ
  qualityFactor : ℝ
  volume : ℝ

/-- The method `updateVowel()`: recompute and retune the three filters; early return
when not running. No field of the synthesizer state is written. -/
noncomputable def updateVowel (s : SynthState) : SynthState × List HostCmd :=
  if s.isRunning then
    (s, ((recompute ⟨s.vowelX, s.vowelY, s.genderFactor, s.qualityFactor⟩).enum.map
      fun p => [HostCmd.setFilterFreq p.1 p.2.1, HostCmd.setFilterQ p.1 p.2.2]).flatten)
  else (s, [])

/-- The method `setPitch(f0)`: forwards `f0` to the oscillator when running; writes no
field of the synthesizer state. -/
noncomputable def setPitch (s : SynthState) (f0 : ℝ) : SynthState × List HostCmd :=
  if s.isRunning then (s, [HostCmd.setOscFreq f0]) else (s, [])

/-- The method `setVolume(vol)`: stores `vol` in the `volume` field and forwards it to
the master gain when running. -/
noncomputable def setVolume (s : SynthState) (vol : ℝ) : SynthState × List HostCmd :=
  let s' := { s with volume := vol }
  if s.isRunning then (s', [HostCmd.setGain vol]) else (s', [])

/-! ### Reference definition of the interpolation, written from the
specification text. -/

/-- Reference definition following the spec's words: compute the Euclidean
distance from `(x, y)` to each of the 11 anchors' positions; select the 3
anchors with smallest distance, ties broken by catalog iteration order
(stable sort); give each selected anchor the weight `1 / (distance + 0.01)`;
normalize the three weights to sum to 1; return each formant band as the
weight-normalized sum of the 3 selected anchors' values for that band. -/
noncomputable def interpolateFormantsSpec (x y : ℝ) : List ℝ :=
  let selected := ((VOWELS.map fun v => (v, distTo v x y)).insertionSort distLE).take 3
  let invDistWeight : Vowel × ℝ → ℝ := fun e => 1.0 / (e.2 + 0.01)
  let weightSum := (selected.map invDistWeight).sum
  (List.range 3).map fun i =>
    (selected.map fun e =>
      invDistWeight e / weightSum * ((e.1.formants.getD i 0 : ℚ) : ℝ)).sum

/-! ### Bridging lemmas: the sort by real distance agrees with the
computable sort by rational squared distance. -/

theorem orderedInsert_congr {α : Type _} {r s : α → α → Prop}
    [DecidableRel r] [DecidableRel s] {a : α} :
    ∀ {l : List α}, (∀ b ∈ l, (r a b ↔ s a b)) →
      l.orderedInsert r a = l.orderedInsert s a
  | [], _ => rfl
  | b :: t, h => by
    simp only [List.orderedInsert]
    by_cases hb : r a b
    · rw [if_pos hb, if_pos ((h b (List.mem_cons_self b t)).1 hb)]
    · rw [if_neg hb, if_neg fun hs => hb ((h b (List.mem_cons_self b t)).2 hs),
        orderedInsert_congr fun c hc => h c (List.mem_cons_of_mem b hc)]

theorem insertionSort_congr {α : Type _} {r s : α → α → Prop}
    [DecidableRel r] [DecidableRel s] :
    ∀ {l : List α}, (∀ a ∈ l, ∀ b ∈ l, (r a b ↔ s a b)) →
      l.insertionSort r = l.insertionSort s
  | [], _ => rfl
  | a :: t, h => by
    simp only [List.insertionSort]
    rw [insertionSort_congr fun u hu v hv =>
      h u (List.mem_cons_of_mem a hu) v (List.mem_cons_of_mem a hv)]
    exact orderedInsert_congr fun b hb =>
      h a (List.mem_cons_self a t)
        b (List.mem_cons_of_mem a ((List.mem_insertionSort s).1 hb))

/-- The real distance at a rational query point is the square root of the
rational squared distance. -/
theorem distTo_rat (v : Vowel) (x y : ℚ) :
    distTo v (x : ℝ) (y : ℝ) = Real.sqrt ((sqDist v x y : ℚ) : ℝ) := by
  simp only [distTo, sqDist]
  push_cast
  ring_nf

theorem sqDist_nonneg (v : Vowel) (x y : ℚ) : 0 ≤ sqDist v x y := by
  have h1 : 0 ≤ (v.posx - x) * (v.posx - x) := mul_self_nonneg _
  have h2 : 0 ≤ (v.posy - y) * (v.posy - y) := mul_self_nonneg _
  simpa [sqDist] using add_nonneg h1 h2

/-- The stable sort of the distance entries is the stable sort of the
catalog by distance, with the distances re-attached afterwards. -/
theorem sortedDistances_eq_map (x y : ℝ) :
    sortedDistances x y =
      (@List.insertionSort Vowel (fun a b => distTo a x y ≤ distTo b x y)
        (fun _ _ => Real.decidableLE _ _) VOWELS).map fun v => (v, distTo v x y) := by
  classical
  exact (List.map_insertionSort _ distLE (fun v => (v, distTo v x y)) VOWELS
    (fun _ _ _ _ => Iff.rfl)).symm

/-- At a rational query point the nearest-3 selection is the computable
rational selection, with each selected anchor's real distance attached. -/
theorem nearest_rat (x y : ℚ) :
    nearest (x : ℝ) (y : ℝ) =
      (selectQ x y).map fun v => (v, Real.sqrt ((sqDist v x y : ℚ) : ℝ)) := by
  classical
  have hsort : (@List.insertionSort Vowel
      (fun a b => distTo a (x : ℝ) (y : ℝ) ≤ distTo b (x : ℝ) (y : ℝ))
      (fun _ _ => Real.decidableLE _ _) VOWELS) = sortVowelsQ x y := by
    apply insertionSort_congr
    intro a _ b _
    rw [distTo_rat, distTo_rat,
      Real.sqrt_le_sqrt_iff (by exact_mod_cast sqDist_nonneg b x y)]
    exact_mod_cast Iff.rfl
  rw [nearest, sortedDistances_eq_map, hsort, ← List.map_take, selectQ]
  exact List.map_congr_left fun v _ => by rw [distTo_rat]

/-! ### Structural facts about the selection and the weights. -/

theorem VOWELS_length : VOWELS.length = 11 := rfl

theorem sortedDistances_length (x y : ℝ) : (sortedDistances x y).length = 11 := by
  rw [sortedDistances, List.length_insertionSort, distances, List.length_map,
    VOWELS_length]

theorem nearest_length (x y : ℝ) : (nearest x y).length = 3 := by
  rw [nearest, List.length_take, sortedDistances_length]
  norm_num

theorem nearest_mem {x y : ℝ} {e : Vowel × ℝ} (he : e ∈ nearest x y) :
    e.1 ∈ VOWELS ∧ e.2 = distTo e.1 x y := by
  have h1 : e ∈ sortedDistances x y := List.mem_of_mem_take he
  have h2 : e ∈ distances x y := by
    rw [sortedDistances] at h1
    exact (List.mem_insertionSort distLE).1 h1
  rw [distances, List.mem_map] at h2
  obtain ⟨v, hv, rfl⟩ := h2
  exact ⟨hv, rfl⟩

theorem nearest_snd_nonneg {x y : ℝ} {e : Vowel × ℝ} (he : e ∈ nearest x y) :
    0 ≤ e.2 := by
  rw [(nearest_mem he).2, distTo]
  exact Real.sqrt_nonneg _

theorem weightList_length (x y : ℝ) : (weightList x y).length = 3 := by
  rw [weightList, List.length_map, nearest_length]

theorem weightList_pos {x y : ℝ} {w : ℝ} (hw : w ∈ weightList x y) : 0 < w := by
  rw [weightList, List.mem_map] at hw
  obtain ⟨e, he, rfl⟩ := hw
  have h01 : (0 : ℝ) < e.2 + 0.01 := by
    have := nearest_snd_nonneg he
    linarith
  exact div_pos (by norm_num) h01

theorem totalWeight_pos (x y : ℝ) : 0 < totalWeight x y := by
  refine List.sum_pos _ (fun w hw => weightList_pos hw) ?_
  intro hnil
  have := weightList_length x y
  rw [hnil] at this
  simp at this

theorem normalizedWeights_length (x y : ℝ) : (normalizedWeights x y).length = 3 := by
  rw [normalizedWeights, List.length_map, weightList_length]

theorem normalizedWeights_pos {x y : ℝ} {w : ℝ} (hw : w ∈ normalizedWeights x y) :
    0 < w := by
  rw [normalizedWeights, List.mem_map] at hw
  obtain ⟨u, hu, rfl⟩ := hw
  exact div_pos (weightList_pos hu) (totalWeight_pos x y)

theorem formants_getD_pos : ∀ v ∈ VOWELS, ∀ i < 3, (0 : ℚ) < v.formants.getD i 0 := by
  decide

theorem interpolateFormants_length (x y : ℝ) :
    (interpolateFormants x y).length = 3 := by
  rw [interpolateFormants, List.length_map, List.length_range]

theorem interpolateFormants_pos {x y : ℝ} :
    ∀ f ∈ interpolateFormants x y, 0 < f := by
  intro f hf
  rw [interpolateFormants, List.mem_map] at hf
  obtain ⟨i, hi, rfl⟩ := hf
  rw [List.mem_range] at hi
  refine List.sum_pos _ ?_ ?_
  · intro t ht
    rw [List.mem_map] at ht
    obtain ⟨p, hp, rfl⟩ := ht
    have h1 : p.1 ∈ nearest x y := (List.of_mem_zip hp).1
    have h2 : p.2 ∈ normalizedWeights x y := (List.of_mem_zip hp).2
    have hF : (0 : ℚ) < p.1.1.formants.getD i 0 :=
      formants_getD_pos p.1.1 (nearest_mem h1).1 i hi
    have hFr : (0 : ℝ) < ((p.1.1.formants.getD i 0 : ℚ) : ℝ) := by exact_mod_cast hF
    exact mul_pos hFr (normalizedWeights_pos h2)
  · intro hnil
    have hlen : (((nearest x y).zip (normalizedWeights x y)).map fun p =>
        ((p.1.1.formants.getD i 0 : ℚ) : ℝ) * p.2).length = 3 := by
      rw [List.length_map, List.length_zip, nearest_length, normalizedWeights_length]
      norm_num
    rw [hnil] at hlen
    simp at hlen

theorem zip_self_map {α : Type _} {β : Type _} (g : α → β) :
    ∀ l : List α, l.zip (l.map g) = l.map fun a => (a, g a)
  | [] => rfl
  | a :: t => by
    simp only [List.map, List.zip_cons_cons, zip_self_map g t]

/-- C2: for every `x` and `y`, `interpolateFormants(x, y)` coincides with
the reference definition written from the spec: Euclidean distances to the
11 anchors, stable nearest-3 selection with ties broken by catalog order,
inverse-distance weights `1/(d + 0.01)` normalized to sum 1, and
weight-normalized sums per formant band. -/
theorem C2_interpolateFormants_eq_spec (x y : ℝ) :
    interpolateFormants x y = interpolateFormantsSpec x y := by
  unfold interpolateFormants interpolateFormantsSpec
  have hW : ((((VOWELS.map fun v => (v, distTo v x y)).insertionSort distLE).take 3).map
      fun e => 1.0 / (e.2 + 0.01)).sum = totalWeight x y := rfl
  simp only [hW]
  apply List.map_congr_left
  intro i _
  have hnw : normalizedWeights x y = (nearest x y).map
      fun e => (1.0 / (e.2 + 0.01)) / totalWeight x y := by
    rw [normalizedWeights, weightList, List.map_map]
    rfl
  rw [hnw, zip_self_map, List.map_map]
  apply congrArg List.sum
  apply List.map_congr_left
  intro e _
  simp only [Function.comp]
  ring

/-! ### Gender scale, bandwidth and recompute facts. -/

theorem scale_pos {g : ℝ} (hg : 0 ≤ g) :
    0 < (if g ≤ 1.0 then 1.0 + 0.18 * g else 1.18 + 0.25 * (g - 1.0)) := by
  split_ifs with h
  · nlinarith
  · push_neg at h
    nlinarith

theorem scaleFormantsForGender_length (fs : List ℝ) (g : ℝ) :
    (scaleFormantsForGender fs g).length = fs.length := by
  rw [scaleFormantsForGender]
  exact List.length_map _ _

theorem scaleFormants_interp_pos {x y g : ℝ} (hg : 0 ≤ g) :
    ∀ f ∈ scaleFormantsForGender (interpolateFormants x y) g, 0 < f := by
  intro f hf
  simp only [scaleFormantsForGender, List.mem_map] at hf
  obtain ⟨u, hu, rfl⟩ := hf
  exact mul_pos (interpolateFormants_pos u hu) (scale_pos hg)

theorem bandwidth_mult_pos {q : ℝ} (hq : -1 ≤ q) :
    0 < (if 0 ≤ q then 1.0 + 0.5 * q else 1.0 + 0.3 * q) := by
  split_ifs with h
  · nlinarith
  · push_neg at h
    nlinarith

theorem calculateBandwidth_pos {f q : ℝ} (hf : 0 < f) (hq : -1 ≤ q) :
    0 < calculateBandwidth f q := by
  rw [calculateBandwidth]
  exact mul_pos (mul_pos hf (by norm_num)) (bandwidth_mult_pos hq)

theorem recompute_length (s : ControlState) : (recompute s).length = 3 := by
  rw [recompute, List.length_map, List.length_range]

theorem mem_recompute {s : ControlState} {p : ℝ × ℝ} (hp : p ∈ recompute s) :
    ∃ freq ∈ scaleFormantsForGender
        (interpolateFormants s.vowelX s.vowelY) s.genderFactor,
      p = (freq, freq / calculateBandwidth freq s.qualityFactor) := by
  rw [recompute, List.mem_map] at hp
  obtain ⟨i, hi, rfl⟩ := hp
  rw [List.mem_range] at hi
  set fs := scaleFormantsForGender
    (interpolateFormants s.vowelX s.vowelY) s.genderFactor with hfs
  have hlen : i < fs.length := by
    rw [hfs, scaleFormantsForGender_length, interpolateFormants_length]
    exact hi
  refine ⟨fs.getD i 0, ?_, rfl⟩
  rw [List.getD_eq_getElem fs 0 hlen]
  exact List.getElem_mem hlen

/-! ### Claim theorems: gender scale, bandwidth, invariants, safety. -/

/-- C3: `scaleFormantsForGender` multiplies every formant by the single
scalar `1.0 + 0.18·g` for `g ∈ [0,1]` and `1.18 + 0.25·(g−1)` for `g > 1`;
it is the identity at `g = 0`, and the scale factor at `g = 1` is exactly
`1.18`. -/
theorem C3_gender_scale (f : List ℝ) (g : ℝ) :
    (0 ≤ g → g ≤ 1 →
      scaleFormantsForGender f g = f.map fun v => v * (1.0 + 0.18 * g)) ∧
    (1 < g →
      scaleFormantsForGender f g = f.map fun v => v * (1.18 + 0.25 * (g - 1.0))) ∧
    scaleFormantsForGender f 0 = f ∧
    scaleFormantsForGender f 1 = f.map fun v => v * 1.18 := by
  refine ⟨fun _ h1 => ?_, fun h1 => ?_, ?_, ?_⟩
  · simp only [scaleFormantsForGender]
    split_ifs with h
    · rfl
    · exfalso
      norm_num at h
      linarith
  · simp only [scaleFormantsForGender]
    split_ifs with h
    · exfalso
      norm_num at h
      linarith
    · rfl
  · simp only [scaleFormantsForGender]
    norm_num
  · simp only [scaleFormantsForGender]
    norm_num

/-- Witness for C3 at `f = [100]`, `g = 1/2` and `g = 2`. -/
theorem C3_gender_scale_witness :
    scaleFormantsForGender [(100 : ℝ)] 0.5 =
      [(100 : ℝ)].map (fun v => v * (1.0 + 0.18 * 0.5)) ∧
    scaleFormantsForGender [(100 : ℝ)] 2 =
      [(100 : ℝ)].map fun v => v * (1.18 + 0.25 * (2 - 1.0)) :=
  ⟨(C3_gender_scale [(100 : ℝ)] 0.5).1 (by norm_num) (by norm_num),
   (C3_gender_scale [(100 : ℝ)] 2).2.1 (by norm_num)⟩

/-- C4: `calculateBandwidth(centerFreq, q)` equals
`centerFreq·0.08·(1.0 + 0.5·q)` for `q ≥ 0` and `centerFreq·0.08·(1.0 + 0.3·q)`
for `q < 0`; at `q = 0` it is exactly `centerFreq·0.08`. -/
theorem C4_bandwidth (f q : ℝ) :
    (0 ≤ q → calculateBandwidth f q = f * 0.08 * (1.0 + 0.5 * q)) ∧
    (q < 0 → calculateBandwidth f q = f * 0.08 * (1.0 + 0.3 * q)) ∧
    calculateBandwidth f 0 = f * 0.08 := by
  refine ⟨fun hq => ?_, fun hq => ?_, ?_⟩
  · simp only [calculateBandwidth]
    rw [if_pos hq]
  · simp only [calculateBandwidth]
    rw [if_neg (not_le.2 hq)]
  · simp only [calculateBandwidth]
    norm_num

/-- Witness for C4 at `f = 500`, `q = 1/2` and `q = -1/2`. -/
theorem C4_bandwidth_witness :
    calculateBandwidth 500 0.5 = 500 * 0.08 * (1.0 + 0.5 * 0.5) ∧
    calculateBandwidth 500 (-0.5) = 500 * 0.08 * (1.0 + 0.3 * (-0.5)) :=
  ⟨(C4_bandwidth 500 0.5).1 (by norm_num),
   (C4_bandwidth 500 (-0.5)).2.1 (by norm_num)⟩

/-- C5: for control values in the documented domains the pipeline yields
exactly 3 strictly positive frequencies and 3 strictly positive Q values,
and `interpolateFormants` alone already yields exactly 3 positive
frequencies. -/
theorem C5_positive (x y g q : ℝ)
    (hx0 : 0 ≤ x) (hx1 : x ≤ 1) (hy0 : 0 ≤ y) (hy1 : y ≤ 1)
    (hg0 : 0 ≤ g) (hg2 : g ≤ 2) (hq0 : -1 ≤ q) (hq1 : q ≤ 1) :
    (interpolateFormants x y).length = 3 ∧
    (∀ f ∈ interpolateFormants x y, 0 < f) ∧
    (recompute ⟨x, y, g, q⟩).length = 3 ∧
    (∀ p ∈ recompute ⟨x, y, g, q⟩, 0 < p.1 ∧ 0 < p.2) := by
  refine ⟨interpolateFormants_length x y, fun f hf => interpolateFormants_pos f hf,
    recompute_length _, fun p hp => ?_⟩
  obtain ⟨freq, hfreq, rfl⟩ := mem_recompute hp
  have hpos : 0 < freq := scaleFormants_interp_pos hg0 freq hfreq
  exact ⟨hpos, div_pos hpos (calculateBandwidth_pos hpos hq0)⟩

/-- Witness for C5 at the default control state. -/
theorem C5_positive_witness :
    (interpolateFormants 0.5 0.5).length = 3 ∧
    (∀ f ∈ interpolateFormants 0.5 0.5, 0 < f) ∧
    (recompute ⟨0.5, 0.5, 0, 0⟩).length = 3 ∧
    (∀ p ∈ recompute ⟨0.5, 0.5, 0, 0⟩, 0 < p.1 ∧ 0 < p.2) :=
  C5_positive 0.5 0.5 0 0 (by norm_num) (by norm_num) (by norm_num) (by norm_num)
    (by norm_num) (by norm_num) (by norm_num) (by norm_num)

/-- C6: the bandwidth is strictly positive for positive centre frequency
and `q ∈ [−1,1]` (the multiplier is at least `0.7`), so `Q = f / bw` never
divides by zero; and the `+0.01` offset keeps every interpolation weight
denominator, and the total weight, away from zero. -/
theorem C6_safety :
    (∀ f q : ℝ, 0 < f → -1 ≤ q → q ≤ 1 →
      f * 0.08 * 0.7 ≤ calculateBandwidth f q ∧ 0 < calculateBandwidth f q) ∧
    (∀ x y : ℝ, (∀ e ∈ nearest x y, e.2 + 0.01 ≠ 0) ∧ totalWeight x y ≠ 0) := by
  constructor
  · intro f q hf hq0 hq1
    constructor
    · rw [calculateBandwidth]
      split_ifs with h
      · nlinarith
      · push_neg at h
        nlinarith
    · exact calculateBandwidth_pos hf hq0
  · intro x y
    constructor
    · intro e he
      have := nearest_snd_nonneg he
      positivity
    · exact ne_of_gt (totalWeight_pos x y)

/-- Witness for C6 at `f = 100`, `q = 0` and the default position. -/
theorem C6_safety_witness :
    100 * 0.08 * 0.7 ≤ calculateBandwidth 100 0 ∧
    (0 : ℝ) < calculateBandwidth 100 0 ∧ totalWeight 0.5 0.5 ≠ 0 :=
  ⟨(C6_safety.1 100 0 (by norm_num) (by norm_num) (by norm_num)).1,
   (C6_safety.1 100 0 (by norm_num) (by norm_num) (by norm_num)).2,
   (C6_safety.2 0.5 0.5).2⟩

/-- C8: the recompute pipeline is pure: running `updateVowel` twice from
the same synthesizer state yields the same host commands and the same
state, with no hidden state drift. -/
theorem C8_idempotent (s : SynthState) :
    (updateVowel ((updateVowel s).1)).2 = (updateVowel s).2 ∧
    (updateVowel ((updateVowel s).1)).1 = (updateVowel s).1 := by
  have h1 : (updateVowel s).1 = s := by
    rw [updateVowel]
    split <;> rfl
  rw [h1]
  exact ⟨rfl, h1⟩

/-- C10: the Q handed to each filter is independent of the band's centre
frequency: it equals `1/(0.08·(1+0.5·q))` for `q ≥ 0` and
`1/(0.08·(1+0.3·q))` for `q < 0`, so all three bands receive the same Q. -/
theorem C10_q_uniform (x y g q : ℝ) (hg : 0 ≤ g) :
    (∀ p ∈ recompute ⟨x, y, g, q⟩,
      p.2 = if 0 ≤ q then 1 / (0.08 * (1.0 + 0.5 * q))
            else 1 / (0.08 * (1.0 + 0.3 * q))) ∧
    (∀ p ∈ recompute ⟨x, y, g, q⟩, ∀ p' ∈ recompute ⟨x, y, g, q⟩, p.2 = p'.2) := by
  have hmain : ∀ p ∈ recompute ⟨x, y, g, q⟩,
      p.2 = if 0 ≤ q then 1 / (0.08 * (1.0 + 0.5 * q))
            else 1 / (0.08 * (1.0 + 0.3 * q)) := by
    intro p hp
    obtain ⟨freq, hfreq, rfl⟩ := mem_recompute hp
    have hpos : 0 < freq := scaleFormants_interp_pos hg freq hfreq
    have hne : freq ≠ 0 := ne_of_gt hpos
    rw [calculateBandwidth]
    split_ifs with h
    · rw [show freq * 0.08 * (1.0 + 0.5 * q) = freq * (0.08 * (1.0 + 0.5 * q)) by ring,
        ← div_div, div_self hne]
    · rw [show freq * 0.08 * (1.0 + 0.3 * q) = freq * (0.08 * (1.0 + 0.3 * q)) by ring,
        ← div_div, div_self hne]
  refine ⟨hmain, fun p hp p' hp' => ?_⟩
  rw [hmain p hp, hmain p' hp']

/-- Witness for C10 at the default control state. -/
theorem C10_q_uniform_witness :
    (∀ p ∈ recompute ⟨0.5, 0.5, 0, 0⟩,
      p.2 = if (0 : ℝ) ≤ 0 then 1 / (0.08 * (1.0 + 0.5 * 0))
            else 1 / (0.08 * (1.0 + 0.3 * 0))) ∧
    (∀ p ∈ recompute ⟨0.5, 0.5, 0, 0⟩, ∀ p' ∈ recompute ⟨0.5, 0.5, 0, 0⟩,
      p.2 = p'.2) :=
  C10_q_uniform 0.5 0.5 0 0 (by norm_num)

/-! ### Pitch and volume pass-through. -/

/-- C9 counterexample: `setPitch` leaves the synthesizer state completely
unchanged — the class has no pitch field, so the claim that the pitch value
is stored in the model's state is false; the value is only forwarded. -/
theorem C9_counterexample :
    (setPitch ⟨true, 0.5, 0.5, 0, 0, 25⟩ 200).1 = ⟨true, 0.5, 0.5, 0, 0, 25⟩ ∧
    (setPitch ⟨true, 0.5, 0.5, 0, 0, 25⟩ 200).2 = [HostCmd.setOscFreq 200] := by
  constructor <;> rfl

/-- C9 (amended): when running, `setPitch(f0)` hands exactly `f0`,
unchanged, to the host oscillator but stores nothing in the model's state,
while `setVolume(v)` both stores `v` in the state's `volume` field and
hands exactly `v`, unchanged, to the host gain node. -/
theorem C9_pass_through (s : SynthState) (f0 vol : ℝ)
    (hrun : s.isRunning = true) :
    (setPitch s f0).1 = s ∧
    (setPitch s f0).2 = [HostCmd.setOscFreq f0] ∧
    (setVolume s vol).1 = { s with volume := vol } ∧
    (setVolume s vol).2 = [HostCmd.setGain vol] := by
  rw [setPitch, setVolume]
  rw [hrun]
  exact ⟨rfl, rfl, rfl, rfl⟩

/-- Witness for C9 at a concrete running state. -/
theorem C9_pass_through_witness :
    (setPitch ⟨true, 0.5, 0.5, 0, 0, 25⟩ 120).1 = ⟨true, 0.5, 0.5, 0, 0, 25⟩ ∧
    (setPitch ⟨true, 0.5, 0.5, 0, 0, 25⟩ 120).2 = [HostCmd.setOscFreq 120] ∧
    (setVolume ⟨true, 0.5, 0.5, 0, 0, 25⟩ 12.5).1 =
      { (⟨true, 0.5, 0.5, 0, 0, 25⟩ : SynthState) with volume := 12.5 } ∧
    (setVolume ⟨true, 0.5, 0.5, 0, 0, 25⟩ 12.5).2 = [HostCmd.setGain 12.5] :=
  C9_pass_through ⟨true, 0.5, 0.5, 0, 0, 25⟩ 120 12.5 rfl

/-! ### Concrete evaluation at the anchor positions. -/

/-- At the position of the anchor `"i"` the three nearest anchors are
`"i"`, `"I"` and `"e"`, at distances `0`, `√0.025` and `√0.1`. -/
theorem nearest09 : nearest 0.9 0.9 =
    [(⟨"i", [270, 2290, 3010], 0.9, 0.9⟩, 0),
     (⟨"I", [390, 1990, 2550], 0.85, 0.75⟩, Real.sqrt 0.025),
     (⟨"e", [530, 1840, 2480], 0.8, 0.6⟩, Real.sqrt 0.1)] := by
  have h : (0.9 : ℝ) = ((0.9 : ℚ) : ℝ) := by norm_num
  rw [h, nearest_rat]
  have hsel : selectQ 0.9 0.9 =
      [⟨"i", [270, 2290, 3010], 0.9, 0.9⟩,
       ⟨"I", [390, 1990, 2550], 0.85, 0.75⟩,
       ⟨"e", [530, 1840, 2480], 0.8, 0.6⟩] := by
    norm_num [selectQ, sortVowelsQ, sqDist, VOWELS]
  rw [hsel]
  norm_num [sqDist]

/-- Closed form of the interpolated formants at `(0.9, 0.9)`. -/
theorem interp09 :
    interpolateFormants 0.9 0.9 =
      [(27000 + 390 / (Real.sqrt 0.025 + 0.01) + 530 / (Real.sqrt 0.1 + 0.01)) /
        (100 + 1 / (Real.sqrt 0.025 + 0.01) + 1 / (Real.sqrt 0.1 + 0.01)),
       (229000 + 1990 / (Real.sqrt 0.025 + 0.01) + 1840 / (Real.sqrt 0.1 + 0.01)) /
        (100 + 1 / (Real.sqrt 0.025 + 0.01) + 1 / (Real.sqrt 0.1 + 0.01)),
       (301000 + 2550 / (Real.sqrt 0.025 + 0.01) + 2480 / (Real.sqrt 0.1 + 0.01)) /
        (100 + 1 / (Real.sqrt 0.025 + 0.01) + 1 / (Real.sqrt 0.1 + 0.01))] := by
  have hd1 : Real.sqrt 0.025 + 0.01 ≠ 0 := by positivity
  have hd2 : Real.sqrt 0.1 + 0.01 ≠ 0 := by positivity
  have hW : (100 : ℝ) + 1 / (Real.sqrt 0.025 + 0.01) + 1 / (Real.sqrt 0.1 + 0.01) ≠ 0 := by
    have h1 : (0 : ℝ) < 1 / (Real.sqrt 0.025 + 0.01) := by positivity
    have h2 : (0 : ℝ) < 1 / (Real.sqrt 0.1 + 0.01) := by positivity
    positivity
  have h3 : List.range 3 = [0, 1, 2] := rfl
  simp only [interpolateFormants, normalizedWeights, weightList, totalWeight,
    nearest09, h3, List.map_cons, List.map_nil, List.zip_cons_cons, List.zip_nil_right,
    List.sum_cons, List.sum_nil]
  norm_num
  refine ⟨?_, ?_, ?_⟩ <;> field_simp <;> ring

/-- Rational bounds on the two square roots occurring at `(0.9, 0.9)`. -/
theorem sqrt_bounds_09 :
    (0.158 : ℝ) < Real.sqrt 0.025 ∧ Real.sqrt 0.025 < 0.1582 ∧
    (0.316 : ℝ) < Real.sqrt 0.1 ∧ Real.sqrt 0.1 < 0.3163 :=
  ⟨(Real.lt_sqrt (by norm_num)).2 (by norm_num),
   (Real.sqrt_lt' (by norm_num)).2 (by norm_num),
   (Real.lt_sqrt (by norm_num)).2 (by norm_num),
   (Real.sqrt_lt' (by norm_num)).2 (by norm_num)⟩

/-- Numeric bounds on the three interpolated formants at `(0.9, 0.9)`:
the first lies strictly above `283.5 = 1.05·270`, and all three lie within
6% of the anchor values `270`, `2290`, `3010`. -/
theorem interp09_bounds :
    283.5 < (interpolateFormants 0.9 0.9).getD 0 0 ∧
    (interpolateFormants 0.9 0.9).getD 0 0 < 286.2 ∧
    2152.6 < (interpolateFormants 0.9 0.9).getD 1 0 ∧
    (interpolateFormants 0.9 0.9).getD 1 0 < 2427.4 ∧
    2829.4 < (interpolateFormants 0.9 0.9).getD 2 0 ∧
    (interpolateFormants 0.9 0.9).getD 2 0 < 3190.6 := by
  obtain ⟨hs1l, hs1u, hs2l, hs2u⟩ := sqrt_bounds_09
  set a : ℝ := 1 / (Real.sqrt 0.025 + 0.01) with ha
  set b : ℝ := 1 / (Real.sqrt 0.1 + 0.01) with hb
  have hal : (5.945 : ℝ) < a := by
    rw [ha]
    have h1 : (1 : ℝ) / 0.1682 < 1 / (Real.sqrt 0.025 + 0.01) :=
      one_div_lt_one_div_of_lt (by positivity) (by linarith)
    have h2 : (5.945 : ℝ) < 1 / 0.1682 := by norm_num
    linarith
  have hau : a < 5.953 := by
    rw [ha]
    have h1 : (1 : ℝ) / (Real.sqrt 0.025 + 0.01) < 1 / 0.168 :=
      one_div_lt_one_div_of_lt (by norm_num) (by linarith)
    have h2 : (1 : ℝ) / 0.168 < 5.953 := by norm_num
    linarith
  have hbl : (3.064 : ℝ) < b := by
    rw [hb]
    have h1 : (1 : ℝ) / 0.3263 < 1 / (Real.sqrt 0.1 + 0.01) :=
      one_div_lt_one_div_of_lt (by positivity) (by linarith)
    have h2 : (3.064 : ℝ) < 1 / 0.3263 := by norm_num
    linarith
  have hbu : b < 3.068 := by
    rw [hb]
    have h1 : (1 : ℝ) / (Real.sqrt 0.1 + 0.01) < 1 / 0.326 :=
      one_div_lt_one_div_of_lt (by norm_num) (by linarith)
    have h2 : (1 : ℝ) / 0.326 < 3.068 := by norm_num
    linarith
  have hW : (0 : ℝ) < 100 + a + b := by linarith
  rw [interp09]
  simp only [List.getD_cons_zero, List.getD_cons_succ]
  have e1 : (27000 + 390 / (Real.sqrt 0.025 + 0.01) + 530 / (Real.sqrt 0.1 + 0.01)) /
      (100 + 1 / (Real.sqrt 0.025 + 0.01) + 1 / (Real.sqrt 0.1 + 0.01)) =
      (27000 + 390 * a + 530 * b) / (100 + a + b) := by
    rw [ha, hb]; ring
  have e2 : (229000 + 1990 / (Real.sqrt 0.025 + 0.01) + 1840 / (Real.sqrt 0.1 + 0.01)) /
      (100 + 1 / (Real.sqrt 0.025 + 0.01) + 1 / (Real.sqrt 0.1 + 0.01)) =
      (229000 + 1990 * a + 1840 * b) / (100 + a + b) := by
    rw [ha, hb]; ring
  have e3 : (301000 + 2550 / (Real.sqrt 0.025 + 0.01) + 2480 / (Real.sqrt 0.1 + 0.01)) /
      (100 + 1 / (Real.sqrt 0.025 + 0.01) + 1 / (Real.sqrt 0.1 + 0.01)) =
      (301000 + 2550 * a + 2480 * b) / (100 + a + b) := by
    rw [ha, hb]; ring
  rw [e1, e2, e3]
  refine ⟨?_, ?_, ?_, ?_, ?_, ?_⟩
  · rw [lt_div_iff₀ hW]; linarith
  · rw [div_lt_iff₀ hW]; linarith
  · rw [lt_div_iff₀ hW]; linarith
  · rw [div_lt_iff₀ hW]; linarith
  · rw [lt_div_iff₀ hW]; linarith
  · rw [div_lt_iff₀ hW]; linarith

/-- At neutral gender and quality the centre frequencies of the pipeline
are exactly the interpolated formants. -/
theorem recompute_neutral_fst (x y : ℝ) :
    (recompute ⟨x, y, 0, 0⟩).map Prod.fst = interpolateFormants x y := by
  obtain ⟨A, B, C, hABC⟩ := List.length_eq_three.1 (interpolateFormants_length x y)
  have h3 : List.range 3 = [0, 1, 2] := rfl
  simp only [recompute, hABC, h3]
  simp only [scaleFormantsForGender]
  norm_num

/-- C1 counterexample: at position `(0.9, 0.9)` with gender factor `0` and
quality factor `0`, the first centre frequency of the pipeline deviates
from `270` Hz by more than 5% (it is about `283.86` Hz, i.e. 5.13% above),
so the claimed ±5% tolerance fails. -/
theorem C1_five_percent_counterexample :
    0.05 * 270 < |((recompute ⟨0.9, 0.9, 0, 0⟩).map Prod.fst).getD 0 0 - 270| := by
  rw [recompute_neutral_fst]
  have hb := interp09_bounds
  have h1 : (0.05 : ℝ) * 270 < (interpolateFormants 0.9 0.9).getD 0 0 - 270 := by
    have := hb.1
    linarith
  exact lt_of_lt_of_le h1 (le_abs_self _)

/-- C1 (amended): at position `(0.9, 0.9)` with gender factor `0` and
quality factor `0` the pipeline returns three centre frequencies, each
within ±6% of `270`, `2290` and `3010` Hz respectively. -/
theorem C1_within_six_percent :
    ((recompute ⟨0.9, 0.9, 0, 0⟩).map Prod.fst).length = 3 ∧
    |((recompute ⟨0.9, 0.9, 0, 0⟩).map Prod.fst).getD 0 0 - 270| ≤ 0.06 * 270 ∧
    |((recompute ⟨0.9, 0.9, 0, 0⟩).map Prod.fst).getD 1 0 - 2290| ≤ 0.06 * 2290 ∧
    |((recompute ⟨0.9, 0.9, 0, 0⟩).map Prod.fst).getD 2 0 - 3010| ≤ 0.06 * 3010 := by
  rw [recompute_neutral_fst]
  obtain ⟨h1l, h1u, h2l, h2u, h3l, h3u⟩ := interp09_bounds
  refine ⟨interpolateFormants_length 0.9 0.9, ?_, ?_, ?_⟩ <;>
    rw [abs_le] <;> constructor <;> linarith

/-- When the query point sits at distance `0` from the first selected
anchor and at positive distance from the other two, the first anchor gets
the strictly largest normalized weight. -/
theorem dominates_of_nearest {x y : ℝ} {v0 v1 v2 : Vowel} {d1 d2 : ℝ}
    (hn : nearest x y = [(v0, 0), (v1, d1), (v2, d2)])
    (h1 : 0 < d1) (h2 : 0 < d2) :
    ((nearest x y).map Prod.fst).getD 0 v0 = v0 ∧
    (normalizedWeights x y).getD 1 0 < (normalizedWeights x y).getD 0 0 ∧
    (normalizedWeights x y).getD 2 0 < (normalizedWeights x y).getD 0 0 := by
  have hWpos := totalWeight_pos x y
  have hw : normalizedWeights x y =
      [(1.0 / (0 + 0.01)) / totalWeight x y,
       (1.0 / (d1 + 0.01)) / totalWeight x y,
       (1.0 / (d2 + 0.01)) / totalWeight x y] := by
    simp only [normalizedWeights, weightList, hn, List.map_cons, List.map_nil]
  refine ⟨by rw [hn]; rfl, ?_, ?_⟩
  · rw [hw]
    simp only [List.getD_cons_zero, List.getD_cons_succ]
    rw [div_lt_div_iff_of_pos_right hWpos,
      div_lt_div_iff₀ (by linarith) (by norm_num)]
    nlinarith
  · rw [hw]
    simp only [List.getD_cons_zero, List.getD_cons_succ]
    rw [div_lt_div_iff_of_pos_right hWpos,
      div_lt_div_iff₀ (by linarith) (by norm_num)]
    nlinarith

set_option maxHeartbeats 3200000 in
/-- C7: at a query point equal to a catalog anchor's position, that anchor
is the first selected anchor and its normalized weight strictly exceeds
the normalized weight of each of the other two selected anchors. -/
theorem C7_exact_anchor_dominates :
    ∀ v ∈ VOWELS,
      ((nearest (v.posx : ℝ) (v.posy : ℝ)).map Prod.fst).getD 0 v = v ∧
      (normalizedWeights (v.posx : ℝ) (v.posy : ℝ)).getD 1 0 <
        (normalizedWeights (v.posx : ℝ) (v.posy : ℝ)).getD 0 0 ∧
      (normalizedWeights (v.posx : ℝ) (v.posy : ℝ)).getD 2 0 <
        (normalizedWeights (v.posx : ℝ) (v.posy : ℝ)).getD 0 0 := by
  intro v hv
  simp only [VOWELS, List.mem_cons, List.not_mem_nil, or_false] at hv
  rcases hv with rfl | rfl | rfl | rfl | rfl | rfl | rfl | rfl | rfl | rfl | rfl
  · have hsel : selectQ 0.9 0.9 =
        [⟨"i", [270, 2290, 3010], 0.9, 0.9⟩,
         ⟨"I", [390, 1990, 2550], 0.85, 0.75⟩,
         ⟨"e", [530, 1840, 2480], 0.8, 0.6⟩] := by
      norm_num [selectQ, sortVowelsQ, sqDist, VOWELS]
    have hn : nearest ((0.9 : ℚ) : ℝ) ((0.9 : ℚ) : ℝ) =
        [(⟨"i", [270, 2290, 3010], 0.9, 0.9⟩, 0),
         (⟨"I", [390, 1990, 2550], 0.85, 0.75⟩, Real.sqrt 0.025),
         (⟨"e", [530, 1840, 2480], 0.8, 0.6⟩, Real.sqrt 0.1)] := by
      rw [nearest_rat, hsel]
      norm_num [sqDist]
    exact dominates_of_nearest hn (Real.sqrt_pos.2 (by norm_num))
      (Real.sqrt_pos.2 (by norm_num))
  · have hsel : selectQ 0.85 0.75 =
        [⟨"I", [390, 1990, 2550], 0.85, 0.75⟩,
         ⟨"i", [270, 2290, 3010], 0.9, 0.9⟩,
         ⟨"e", [530, 1840, 2480], 0.8, 0.6⟩] := by
      norm_num [selectQ, sortVowelsQ, sqDist, VOWELS]
    have hn : nearest ((0.85 : ℚ) : ℝ) ((0.75 : ℚ) : ℝ) =
        [(⟨"I", [390, 1990, 2550], 0.85, 0.75⟩, 0),
         (⟨"i", [270, 2290, 3010], 0.9, 0.9⟩, Real.sqrt 0.025),
         (⟨"e", [530, 1840, 2480], 0.8, 0.6⟩, Real.sqrt 0.025)] := by
      rw [nearest_rat, hsel]
      norm_num [sqDist]
    exact dominates_of_nearest hn (Real.sqrt_pos.2 (by norm_num))
      (Real.sqrt_pos.2 (by norm_num))
  · have hsel : selectQ 0.8 0.6 =
        [⟨"e", [530, 1840, 2480], 0.8, 0.6⟩,
         ⟨"I", [390, 1990, 2550], 0.85, 0.75⟩,
         ⟨"ɛ", [660, 1720, 2410], 0.7, 0.4⟩] := by
      norm_num [selectQ, sortVowelsQ, sqDist, VOWELS]
    have hn : nearest ((0.8 : ℚ) : ℝ) ((0.6 : ℚ) : ℝ) =
        [(⟨"e", [530, 1840, 2480], 0.8, 0.6⟩, 0),
         (⟨"I", [390, 1990, 2550], 0.85, 0.75⟩, Real.sqrt 0.025),
         (⟨"ɛ", [660, 1720, 2410], 0.7, 0.4⟩, Real.sqrt 0.05)] := by
      rw [nearest_rat, hsel]
      norm_num [sqDist]
    exact dominates_of_nearest hn (Real.sqrt_pos.2 (by norm_num))
      (Real.sqrt_pos.2 (by norm_num))
  · have hsel : selectQ 0.7 0.4 =
        [⟨"ɛ", [660, 1720, 2410], 0.7, 0.4⟩,
         ⟨"æ", [860, 1550, 2410], 0.7, 0.2⟩,
         ⟨"e", [530, 1840, 2480], 0.8, 0.6⟩] := by
      norm_num [selectQ, sortVowelsQ, sqDist, VOWELS]
    have hn : nearest ((0.7 : ℚ) : ℝ) ((0.4 : ℚ) : ℝ) =
        [(⟨"ɛ", [660, 1720, 2410], 0.7, 0.4⟩, 0),
         (⟨"æ", [860, 1550, 2410], 0.7, 0.2⟩, Real.sqrt 0.04),
         (⟨"e", [530, 1840, 2480], 0.8, 0.6⟩, Real.sqrt 0.05)] := by
      rw [nearest_rat, hsel]
      norm_num [sqDist]
    exact dominates_of_nearest hn (Real.sqrt_pos.2 (by norm_num))
      (Real.sqrt_pos.2 (by norm_num))
  · have hsel : selectQ 0.7 0.2 =
        [⟨"æ", [860, 1550, 2410], 0.7, 0.2⟩,
         ⟨"ɛ", [660, 1720, 2410], 0.7, 0.4⟩,
         ⟨"ɑ", [730, 1090, 2440], 0.4, 0.15⟩] := by
      norm_num [selectQ, sortVowelsQ, sqDist, VOWELS]
    have hn : nearest ((0.7 : ℚ) : ℝ) ((0.2 : ℚ) : ℝ) =
        [(⟨"æ", [860, 1550, 2410], 0.7, 0.2⟩, 0),
         (⟨"ɛ", [660, 1720, 2410], 0.7, 0.4⟩, Real.sqrt 0.04),
         (⟨"ɑ", [730, 1090, 2440], 0.4, 0.15⟩, Real.sqrt 0.0925)] := by
      rw [nearest_rat, hsel]
      norm_num [sqDist]
    exact dominates_of_nearest hn (Real.sqrt_pos.2 (by norm_num))
      (Real.sqrt_pos.2 (by norm_num))
  · have hsel : selectQ 0.5 0.5 =
        [⟨"ə", [490, 1350, 1690], 0.5, 0.5⟩,
         ⟨"ɛ", [660, 1720, 2410], 0.7, 0.4⟩,
         ⟨"ɔ", [570, 840, 2410], 0.3, 0.35⟩] := by
      norm_num [selectQ, sortVowelsQ, sqDist, VOWELS]
    have hn : nearest ((0.5 : ℚ) : ℝ) ((0.5 : ℚ) : ℝ) =
        [(⟨"ə", [490, 1350, 1690], 0.5, 0.5⟩, 0),
         (⟨"ɛ", [660, 1720, 2410], 0.7, 0.4⟩, Real.sqrt 0.05),
         (⟨"ɔ", [570, 840, 2410], 0.3, 0.35⟩, Real.sqrt 0.0625)] := by
      rw [nearest_rat, hsel]
      norm_num [sqDist]
    exact dominates_of_nearest hn (Real.sqrt_pos.2 (by norm_num))
      (Real.sqrt_pos.2 (by norm_num))
  · have hsel : selectQ 0.4 0.15 =
        [⟨"ɑ", [730, 1090, 2440], 0.4, 0.15⟩,
         ⟨"ɔ", [570, 840, 2410], 0.3, 0.35⟩,
         ⟨"æ", [860, 1550, 2410], 0.7, 0.2⟩] := by
      norm_num [selectQ, sortVowelsQ, sqDist, VOWELS]
    have hn : nearest ((0.4 : ℚ) : ℝ) ((0.15 : ℚ) : ℝ) =
        [(⟨"ɑ", [730, 1090, 2440], 0.4, 0.15⟩, 0),
         (⟨"ɔ", [570, 840, 2410], 0.3, 0.35⟩, Real.sqrt 0.05),
         (⟨"æ", [860, 1550, 2410], 0.7, 0.2⟩, Real.sqrt 0.0925)] := by
      rw [nearest_rat, hsel]
      norm_num [sqDist]
    exact dominates_of_nearest hn (Real.sqrt_pos.2 (by norm_num))
      (Real.sqrt_pos.2 (by norm_num))
  · have hsel : selectQ 0.3 0.35 =
        [⟨"ɔ", [570, 840, 2410], 0.3, 0.35⟩,
         ⟨"ɑ", [730, 1090, 2440], 0.4, 0.15⟩,
         ⟨"o", [450, 870, 2410], 0.2, 0.55⟩] := by
      norm_num [selectQ, sortVowelsQ, sqDist, VOWELS]
    have hn : nearest ((0.3 : ℚ) : ℝ) ((0.35 : ℚ) : ℝ) =
        [(⟨"ɔ", [570, 840, 2410], 0.3, 0.35⟩, 0),
         (⟨"ɑ", [730, 1090, 2440], 0.4, 0.15⟩, Real.sqrt 0.05),
         (⟨"o", [450, 870, 2410], 0.2, 0.55⟩, Real.sqrt 0.05)] := by
      rw [nearest_rat, hsel]
      norm_num [sqDist]
    exact dominates_of_nearest hn (Real.sqrt_pos.2 (by norm_num))
      (Real.sqrt_pos.2 (by norm_num))
  · have hsel : selectQ 0.2 0.55 =
        [⟨"o", [450, 870, 2410], 0.2, 0.55⟩,
         ⟨"ʊ", [440, 1020, 2240], 0.15, 0.75⟩,
         ⟨"ɔ", [570, 840, 2410], 0.3, 0.35⟩] := by
      norm_num [selectQ, sortVowelsQ, sqDist, VOWELS]
    have hn : nearest ((0.2 : ℚ) : ℝ) ((0.55 : ℚ) : ℝ) =
        [(⟨"o", [450, 870, 2410], 0.2, 0.55⟩, 0),
         (⟨"ʊ", [440, 1020, 2240], 0.15, 0.75⟩, Real.sqrt 0.0425),
         (⟨"ɔ", [570, 840, 2410], 0.3, 0.35⟩, Real.sqrt 0.05)] := by
      rw [nearest_rat, hsel]
      norm_num [sqDist]
    exact dominates_of_nearest hn (Real.sqrt_pos.2 (by norm_num))
      (Real.sqrt_pos.2 (by norm_num))
  · have hsel : selectQ 0.1 0.9 =
        [⟨"u", [300, 870, 2240], 0.1, 0.9⟩,
         ⟨"ʊ", [440, 1020, 2240], 0.15, 0.75⟩,
         ⟨"o", [450, 870, 2410], 0.2, 0.55⟩] := by
      norm_num [selectQ, sortVowelsQ, sqDist, VOWELS]
    have hn : nearest ((0.1 : ℚ) : ℝ) ((0.9 : ℚ) : ℝ) =
        [(⟨"u", [300, 870, 2240], 0.1, 0.9⟩, 0),
         (⟨"ʊ", [440, 1020, 2240], 0.15, 0.75⟩, Real.sqrt 0.025),
         (⟨"o", [450, 870, 2410], 0.2, 0.55⟩, Real.sqrt 0.1325)] := by
      rw [nearest_rat, hsel]
      norm_num [sqDist]
    exact dominates_of_nearest hn (Real.sqrt_pos.2 (by norm_num))
      (Real.sqrt_pos.2 (by norm_num))
  · have hsel : selectQ 0.15 0.75 =
        [⟨"ʊ", [440, 1020, 2240], 0.15, 0.75⟩,
         ⟨"u", [300, 870, 2240], 0.1, 0.9⟩,
         ⟨"o", [450, 870, 2410], 0.2, 0.55⟩] := by
      norm_num [selectQ, sortVowelsQ, sqDist, VOWELS]
    have hn : nearest ((0.15 : ℚ) : ℝ) ((0.75 : ℚ) : ℝ) =
        [(⟨"ʊ", [440, 1020, 2240], 0.15, 0.75⟩, 0),
         (⟨"u", [300, 870, 2240], 0.1, 0.9⟩, Real.sqrt 0.025),
         (⟨"o", [450, 870, 2410], 0.2, 0.55⟩, Real.sqrt 0.0425)] := by
      rw [nearest_rat, hsel]
      norm_num [sqDist]
    exact dominates_of_nearest hn (Real.sqrt_pos.2 (by norm_num))
      (Real.sqrt_pos.2 (by norm_num))

/-- Witness for C7 at the anchor `"i"`. -/
theorem C7_exact_anchor_dominates_witness :
    ((nearest ((0.9 : ℚ) : ℝ) ((0.9 : ℚ) : ℝ)).map Prod.fst).getD 0
        ⟨"i", [270, 2290, 3010], 0.9, 0.9⟩ = ⟨"i", [270, 2290, 3010], 0.9, 0.9⟩ ∧
    (normalizedWeights ((0.9 : ℚ) : ℝ) ((0.9 : ℚ) : ℝ)).getD 1 0 <
      (normalizedWeights ((0.9 : ℚ) : ℝ) ((0.9 : ℚ) : ℝ)).getD 0 0 ∧
    (normalizedWeights ((0.9 : ℚ) : ℝ) ((0.9 : ℚ) : ℝ)).getD 2 0 <
      (normalizedWeights ((0.9 : ℚ) : ℝ) ((0.9 : ℚ) : ℝ)).getD 0 0 :=
  C7_exact_anchor_dominates ⟨"i", [270, 2290, 3010], 0.9, 0.9⟩ (by simp [VOWELS])

end VowelSynth
